import Mathlib

/-!
Shallow embedding of the batch-training orchestration core from
`doc/source/ray-core/examples/batch_training.ipynb`.

The notebook's functions are translated one-to-one:
* `transform_batch`      — pandas datetime parsing, trip duration, fillna(-1)
* `fit_and_score_sklearn` — fit/predict one estimator and compute the MAE
* `train_test_split`     — sklearn's default split (test_size = 0.25, shuffle);
                           the permutation drawn from the ambient global RNG is
                           passed explicitly as the `perm` argument
* `train_and_evaluate`   — the evaluation group over one batch
* `read_data`            — push-down-predicate load of one partition
* `task`                 — the partition pipeline (load, transform, evaluate)
* `task_generator`       — enumerate (file, partition key) pairs and submit
* `run`                  — the run coordinator: collect results, report counts
* `read_into_object_store`, `task_generator_with_object_store` — staged mode

Failure channels of the Python code (exceptions) are embedded as `Except`.
Machine floats (MAE scores) are embedded as `ℚ`; the pluggable scikit-learn
estimator is embedded as the capability interface `SkModel`/`SkFitted`.
-/

namespace BatchTraining

/-- A fit/predict failure raised inside `fit_and_score_sklearn`. -/
inductive TrainingFailure
  | fitFailed
  | predictFailed
  | scoreFailed
deriving DecidableEq

/-- An exception escaping a `task` invocation. -/
inductive PipeFailure
  | sourceUnreadable
  | transformFailed
  | training (e : TrainingFailure)
deriving DecidableEq

/-- A raw datetime cell as seen by `pd.to_datetime(col, format=...)`:
a parseable timestamp (seconds), a missing value (NaN, parsed to NaT),
or a malformed string (raises ValueError). -/
inductive DTField
  | dt (seconds : Nat)
  | missing
  | malformed
deriving DecidableEq

/-- One raw row of the four columns read by the notebook. -/
structure RawRow where
  pickup_at : DTField
  dropoff_at : DTField
  pickup_location_id : Option Int
  dropoff_location_id : Option Int
deriving DecidableEq

/-- One transformed row produced by `transform_batch`:
location ids have been filled with the sentinel -1,
`trip_duration` is the `.dt.seconds` component (none when a datetime was NaT). -/
structure TransRow where
  pickup_at : Option Nat
  dropoff_at : Option Nat
  trip_duration : Option Int
  pickup_location_id : Int
  dropoff_location_id : Int
deriving DecidableEq

/-- One parquet file: its path, whether `pq.read_table` succeeds on it, and its
rows (restricted to the four columns the notebook reads). -/
structure FileData where
  name : String
  readable : Bool
  rows : List RawRow
deriving DecidableEq

/-- `pd.to_datetime(x, format=...)` on one cell: NaN stays NaT, a malformed
string raises (the column-wise call raises iff some cell is malformed, which
coincides with the row-wise `mapM` below). -/
def toDatetime : DTField → Except PipeFailure (Option Nat)
  | .dt s => .ok (some s)
  | .missing => .ok none
  | .malformed => .error .transformFailed

/-- The per-row effect of `transform_batch`: parse both datetimes,
compute `(dropoff_at - pickup_at).dt.seconds` (the seconds component of the
timedelta, i.e. the difference modulo 86400, NaN when either side is NaT),
and `fillna(-1)` on both location ids. -/
def transform_row (r : RawRow) : Except PipeFailure TransRow := do
  let p ← toDatetime r.pickup_at
  let d ← toDatetime r.dropoff_at
  pure {
    pickup_at := p
    dropoff_at := d
    trip_duration :=
      match p, d with
      | some p, some d => some (((d : Int) - (p : Int)) % 86400)
      | _, _ => none
    pickup_location_id := r.pickup_location_id.getD (-1)
    dropoff_location_id := r.dropoff_location_id.getD (-1) }

/-- `transform_batch(df)` from the notebook. -/
def transform_batch (rows : List RawRow) : Except PipeFailure (List TransRow) :=
  rows.mapM transform_row

/-- The total row transformation on rows with no malformed mandatory field:
what `transform_row` returns whenever it does not raise. -/
def parsedDT : DTField → Option Nat
  | .dt s => some s
  | .missing => none
  | .malformed => none

/-- Pure image of one row under the transformer (used to state what
`transform_batch` produces when nothing raises). -/
def fillRow (r : RawRow) : TransRow :=
  { pickup_at := parsedDT r.pickup_at
    dropoff_at := parsedDT r.dropoff_at
    trip_duration :=
      match parsedDT r.pickup_at, parsedDT r.dropoff_at with
      | some p, some d => some (((d : Int) - (p : Int)) % 86400)
      | _, _ => none
    pickup_location_id := r.pickup_location_id.getD (-1)
    dropoff_location_id := r.dropoff_location_id.getD (-1) }

/-- The pyarrow filter `("pickup_location_id", "=", i)`: arrow equality with a
null on either side does not match. -/
def keyMatches (i : Option Int) (r : RawRow) : Bool :=
  match i, r.pickup_location_id with
  | some a, some b => a == b
  | _, _ => false

/-- `read_data(file, i)` from the notebook: `pq.read_table` with a push-down
predicate. An unreadable file raises inside the task. -/
def read_data (f : FileData) (i : Option Int) : Except PipeFailure (List RawRow) :=
  if f.readable then .ok (f.rows.filter (keyMatches i)) else .error .sourceUnreadable

/-- PyArrow `ChunkedArray.unique()`: distinct values in order of first
occurrence (a possible null is a distinct value). -/
def dedupFirst (l : List (Option Int)) : List (Option Int) :=
  l.foldl (fun acc x => if x ∈ acc then acc else acc ++ [x]) []

/-- The partition locator inside `task_generator`:
`locdf["pickup_location_id"].unique()`. -/
def locate (f : FileData) : List (Option Int) :=
  dedupFirst (f.rows.map (·.pickup_location_id))

/-- A fitted estimator: the opaque artifact returned by `model.fit`, with its
`predict` capability. -/
structure SkFitted where
  predict : List Int → Except TrainingFailure (List ℚ)

/-- A scikit-learn `BaseEstimator`, embedded capability-only:
`fit(train_X, train_y)` yields a fitted artifact or raises. -/
structure SkModel where
  fit : List Int → List (Option Int) → Except TrainingFailure SkFitted

/-- `sklearn.metrics.mean_absolute_error`: raises on a length mismatch, an
empty input, or a NaN target; otherwise the mean of absolute differences. -/
def mean_absolute_error (y_true : List (Option Int)) (y_pred : List ℚ) :
    Except TrainingFailure ℚ :=
  if y_true.length = y_pred.length ∧ y_true ≠ [] ∧ y_true.all (·.isSome) then
    .ok (((y_true.zip y_pred).foldl
        (fun acc t => acc + |((t.1.getD 0 : Int) : ℚ) - t.2|) 0) / y_true.length)
  else .error .scoreFailed

/-- `fit_and_score_sklearn(train, test, model)` from the notebook. -/
def fit_and_score_sklearn (train test : List TransRow) (model : SkModel) :
    Except TrainingFailure (SkFitted × ℚ) := do
  let train_X := train.map (·.dropoff_location_id)
  let train_y := train.map (·.trip_duration)
  let test_X := test.map (·.dropoff_location_id)
  let test_y := test.map (·.trip_duration)
  let fitted ← model.fit train_X train_y
  let pred_y ← fitted.predict test_X
  let error ← mean_absolute_error test_y pred_y
  pure (fitted, error)

/-- `sklearn.model_selection.train_test_split(df)` with its defaults
(`test_size = 0.25`, `shuffle = True`, no `random_state`): the caller supplies
no seed, so the permutation of `range(len(df))` is drawn from the ambient
global RNG; it is passed here explicitly as `perm`. The test set takes the
first `ceil(0.25 * n)` shuffled indices, the train set the rest. -/
def train_test_split (df : List TransRow) (perm : List Nat) :
    List TransRow × List TransRow :=
  let n_test := (df.length + 3) / 4
  ((perm.drop n_test).filterMap (fun i => df[i]?),
   (perm.take n_test).filterMap (fun i => df[i]?))

/-- `ray.get` on a list of object refs: returns the values in the order of the
refs list, re-raising the first stored exception encountered in that order. -/
def rayGetAll {ε α : Type _} : List (Except ε α) → Except ε (List α)
  | [] => .ok []
  | .error e :: _ => .error e
  | .ok a :: rest => (rayGetAll rest).map (a :: ·)

/-- The comparison key of `results.sort(key=lambda x: x[1])`. -/
def scoreLE (a b : SkFitted × ℚ) : Bool := decide (a.2 ≤ b.2)

/-- Insert one result into an already sorted list, after every earlier result
whose score is less than or equal to its own (the insertion step of a stable
ascending sort). -/
def insertAsc (x : SkFitted × ℚ) : List (SkFitted × ℚ) → List (SkFitted × ℚ)
  | [] => [x]
  | y :: ys => if scoreLE y x then y :: insertAsc x ys else x :: y :: ys

/-- Sort by inserting the input's elements in order into an accumulator. -/
def pySortAux : List (SkFitted × ℚ) → List (SkFitted × ℚ) → List (SkFitted × ℚ)
  | acc, [] => acc
  | acc, x :: xs => pySortAux (insertAsc x acc) xs

/-- Python's `list.sort` (a stable sort) keyed on the error score, embedded as
a stable insertion sort. -/
def pySort (l : List (SkFitted × ℚ)) : List (SkFitted × ℚ) :=
  pySortAux [] l

/-- The list comprehension inside `train_and_evaluate`: one
`fit_and_score_sklearn` unit per model, in declaration order, all sharing the
one split of this call. -/
def unitResults (df : List TransRow) (models : List SkModel) (perm : List Nat) :
    List (Except TrainingFailure (SkFitted × ℚ)) :=
  let split := train_test_split df perm
  models.map (fun m => fit_and_score_sklearn split.1 split.2 m)

/-- The surviving trainer results in routine declaration order (the ranking's
input before sorting). -/
def trainerResults (df : List TransRow) (models : List SkModel) (perm : List Nat) :
    List (SkFitted × ℚ) :=
  (unitResults df models perm).filterMap Except.toOption

/-- `train_and_evaluate(df, models)` from the notebook: fewer than 4 rows
returns `None`; otherwise split once, fan out one unit per model, `ray.get`
them all, and stable-sort by error. -/
def train_and_evaluate (df : List TransRow) (models : List SkModel)
    (perm : List Nat) : Except TrainingFailure (Option (List (SkFitted × ℚ))) :=
  if df.length < 4 then .ok none
  else
    match rayGetAll (unitResults df models perm) with
    | .error e => .error e
    | .ok results => .ok (some (pySort results))

/-- How many trainer units the comprehension in `train_and_evaluate` submits:
none when the early `len(df) < 4` return fires, one per model otherwise. -/
def submittedTrainerUnits (df : List TransRow) (models : List SkModel) : Nat :=
  if df.length < 4 then 0 else models.length

/-- The value returned by one `task`: `(file_name, i, train_and_evaluate(...))`. -/
abbrev TaskResult := String × Option Int × Option (List (SkFitted × ℚ))

/-- `task(data, file_name, i, models, read_data)` from the notebook, in
on-demand mode: load, transform, evaluate. No step is wrapped in a handler, so
any failure escapes the task. -/
def task (perm : List Nat) (f : FileData) (i : Option Int)
    (models : List SkModel) : Except PipeFailure TaskResult := do
  let data ← read_data f i
  let transformed ← transform_batch data
  match train_and_evaluate transformed models perm with
  | .error e => .error (.training e)
  | .ok r => .ok (f.name, i, r)

/-- The observable call events of one `task` body, in program order: the load
call, the `transform_batch` call, the `train_and_evaluate` call, and each
trainer-unit submission made inside it. -/
inductive Ev
  | load
  | transform
  | evaluate
  | submitTrainer
deriving DecidableEq

/-- Which of the pipeline steps a `task` invocation actually executes, mirroring
the control flow of `task` and `train_and_evaluate`. -/
def taskEvents (f : FileData) (i : Option Int) (models : List SkModel) : List Ev :=
  .load ::
    match read_data f i with
    | .error _ => []
    | .ok data =>
      .transform ::
        match transform_batch data with
        | .error _ => []
        | .ok transformed =>
          .evaluate ::
            (if transformed.length < 4 then []
             else models.map (fun _ => .submitTrainer))

/-- `task_generator(files, models)`: skip a file whose key-column read raises,
then yield one task per distinct partition key of the file. The pairs are in
submission order: files in the given order, keys in first-occurrence order. -/
def task_generator (files : List FileData) : List (FileData × Option Int) :=
  files.flatMap (fun f =>
    if f.readable then (locate f).map (fun i => (f, i)) else [])

/-- Python's `x is not None` on a task result: `task` returns a 3-tuple, and a
tuple is never `None`, so this is constantly true. -/
def py_is_not_none (_ : TaskResult) : Bool := true

/-- The ordered list of futures submitted by one run (`task_refs`), with the
value each will resolve to; `perms k` is the ambient RNG draw inside the k-th
task. -/
def submittedTasks (files : List FileData) (models : List SkModel)
    (perms : Nat → List Nat) : List (Except PipeFailure TaskResult) :=
  (task_generator files).enum.map (fun p => task (perms p.1) p.2.1 p.2.2 models)

/-- The aggregate the `run` driver computes: the results list, `count =
len(results)`, and `count_not_none = len([x for x in results if x is not None])`. -/
structure RunReport where
  results : List TaskResult
  count : Nat
  countNotNone : Nat

/-- `run(files, task_generator, models)` from the notebook: submit every task,
`ray.get` them all (raising if any task raised), and report the counts. -/
def run (files : List FileData) (models : List SkModel)
    (perms : Nat → List Nat) : Except PipeFailure RunReport :=
  (rayGetAll (submittedTasks files models perms)).map (fun results =>
    { results := results
      count := results.length
      countNotNone := (results.filter py_is_not_none).length })

/-- Boolean success test for an `Except` value. -/
def exceptOk {ε α : Type _} : Except ε α → Bool
  | .ok _ => true
  | .error _ => false

/-- The object store built up by task completions: tasks finish in the order
given by `order` (indices into the futures list), each depositing its value. -/
def storeAfter {α : Type _} (tasks : List α) (order : List Nat) : List (Nat × α) :=
  order.filterMap (fun i => (tasks[i]?).map (fun t => (i, t)))

/-- `ray.get(task_refs)` against a completion schedule: read each future's
deposited value, in the order of the futures list, not completion order. -/
def await_all {α : Type _} (tasks : List α) (order : List Nat) : List (Option α) :=
  (List.range tasks.length).map (fun i => (storeAfter tasks order).lookup i)

/-- A write-once object-store handle, distinct from the value it names. -/
structure Handle (α : Type) where
  val : α
deriving DecidableEq

/-- `ray.put`. -/
def Handle.put {α : Type} (x : α) : Handle α := ⟨x⟩

/-- `read_into_object_store(file)` from the staged mode: a file whose read
raises is caught inside the task and yields `[]`; otherwise one object-store
handle per distinct partition key of the file. -/
def read_into_object_store (f : FileData) :
    List (Option Int × Handle (List RawRow)) :=
  if f.readable then
    (locate f).map (fun i => (i, Handle.put (f.rows.filter (keyMatches i))))
  else []

/-- Outcome of the staging phase: whether `remove_placement_group` ran, and the
tasks dispatched against staged handles. -/
structure StagedRun where
  released : Bool
  tasks : List (String × Option Int × Handle (List RawRow))

/-- `task_generator_with_object_store(files, models)`: reserve one spread slot
per file, dispatch one `read_into_object_store` per file, `ray.get` all the
load tasks (each catches its own read failure and returns `[]`), call
`remove_placement_group` unconditionally once they are collected, then yield
one task per staged (file, key) handle. -/
def task_generator_with_object_store (files : List FileData) : StagedRun :=
  let group_refs := files.map (fun f => (f, read_into_object_store f))
  { released := true
    tasks := group_refs.flatMap (fun fr => fr.2.map (fun ir => (fr.1.name, ir.1, ir.2))) }

/-! Concrete fixtures used by the counterexamples and witnesses. -/

/-- A transformed row: 100-second trip, distinguishable by dropoff id. -/
def trowD (j : Int) : TransRow :=
  { pickup_at := some 0, dropoff_at := some 100, trip_duration := some 100,
    pickup_location_id := 1, dropoff_location_id := j }

/-- A four-row transformed batch with pairwise distinct rows. -/
def dfT : List TransRow := [trowD 5, trowD 6, trowD 7, trowD 8]

/-- A well-formed raw row in partition `k`. -/
def rawRow (k : Int) : RawRow :=
  { pickup_at := .dt 0, dropoff_at := .dt 100,
    pickup_location_id := some k, dropoff_location_id := some 5 }

/-- A raw row whose mandatory pickup datetime is unparseable. -/
def badRow : RawRow :=
  { pickup_at := .malformed, dropoff_at := .dt 100,
    pickup_location_id := some 2, dropoff_location_id := some 5 }

/-- A raw row with missing optional location ids and a missing dropoff time. -/
def optRow : RawRow :=
  { pickup_at := .dt 0, dropoff_at := .missing,
    pickup_location_id := none, dropoff_location_id := none }

/-- An estimator artifact predicting the constant `c`. -/
def constFitted (c : ℚ) : SkFitted :=
  { predict := fun xs => .ok (xs.map (fun _ => c)) }

/-- An estimator whose fit always succeeds and predicts the constant `c`. -/
def constModel (c : ℚ) : SkModel :=
  { fit := fun _ _ => .ok (constFitted c) }

/-- An estimator whose fit always raises. -/
def failModel : SkModel :=
  { fit := fun _ _ => .error .fitFailed }

/-- The identity draw of the ambient RNG on four rows. -/
def permId4 : List Nat := [0, 1, 2, 3]

/-- Every task of a run sees the identity draw on four rows. -/
def permsId : Nat → List Nat := fun _ => permId4

/-- One readable file whose only partition key is 1, with four rows. -/
def fileA : FileData :=
  { name := "a", readable := true, rows := [rawRow 1, rawRow 1, rawRow 1, rawRow 1] }

/-- One readable file with partition keys 1 (two rows), 2 (four rows) and
3 (four rows). -/
def fileS : FileData :=
  { name := "s", readable := true,
    rows := [rawRow 1, rawRow 1,
             rawRow 2, rawRow 2, rawRow 2, rawRow 2,
             rawRow 3, rawRow 3, rawRow 3, rawRow 3] }

/-- One readable file with a healthy partition 1 and a partition 2 whose only
row has an unparseable mandatory field. -/
def fileMix : FileData :=
  { name := "m", readable := true,
    rows := [rawRow 1, rawRow 1, rawRow 1, rawRow 1, badRow] }

/-- An unreadable file. -/
def fileBad : FileData :=
  { name := "x", readable := false, rows := [rawRow 9] }

/-! Auxiliary lemmas. -/

/-- Looking up every index of a list in order reproduces the list. -/
theorem range_filterMap_getElem {α : Type _} (l : List α) :
    (List.range l.length).filterMap (fun i => l[i]?) = l := by
  induction l with
  | nil => rfl
  | cons a t ih =>
    rw [List.length_cons, List.range_succ_eq_map, List.filterMap_cons]
    simp only [List.getElem?_cons_zero, List.filterMap_map]
    have hc : ((fun i => (a :: t)[i]?) ∘ Nat.succ) = fun i => t[i]? := by
      funext i
      simp [List.getElem?_cons_succ]
    rw [hc, ih]

/-- Index lookups over in-bounds indices lose nothing. -/
theorem filterMap_getElem_length {α : Type _} (df : List α) :
    ∀ l : List Nat, (∀ i ∈ l, i < df.length) →
      (l.filterMap (fun i => df[i]?)).length = l.length := by
  intro l
  induction l with
  | nil => simp
  | cons j t ih =>
    intro h
    have hj : j < df.length := h j (by simp)
    rw [List.filterMap_cons, List.getElem?_eq_getElem hj]
    simp only [List.length_cons]
    rw [ih (fun i hi => h i (List.mem_cons_of_mem _ hi))]

/-! Claim theorems. -/

/-- C5: a batch with fewer than four rows (the hard-coded
`min_rows_per_partition`) makes the evaluation group return the empty marker
`None` as a normal value, submitting zero trainer units. -/
theorem C5_theorem (df : List TransRow) (models : List SkModel) (perm : List Nat)
    (h : df.length < 4) :
    train_and_evaluate df models perm = .ok none ∧
    submittedTrainerUnits df models = 0 := by
  constructor
  · rw [train_and_evaluate, if_pos h]
  · rw [submittedTrainerUnits, if_pos h]

/-- C5 witness: a concrete two-row batch yields the empty marker and zero
submitted trainer units. -/
theorem C5_witness :
    train_and_evaluate [trowD 5, trowD 6] [constModel 0] permId4 = .ok none ∧
    submittedTrainerUnits [trowD 5, trowD 6] [constModel 0] = 0 :=
  C5_theorem [trowD 5, trowD 6] [constModel 0] permId4 (by decide)

/-- C4 counterexample: for a (source, key) whose load returns the empty batch,
the pipeline still executes the transformer and the evaluation-group call
(the claim says neither is attempted). -/
theorem C4_counterexample :
    Ev.transform ∈ taskEvents fileA (some 2) [constModel 0] ∧
    Ev.evaluate ∈ taskEvents fileA (some 2) [constModel 0] ∧
    read_data fileA (some 2) = .ok [] := by
  refine ⟨by decide, by decide, rfl⟩

/-- C4 (amended): when the loader returns the empty batch, the pipeline does
return the result carrying the empty marker, but only after running the
transformer on the empty batch and entering the evaluation group, which
short-circuits through its minimum-rows check without submitting trainer
units. -/
theorem C4_amended_theorem (perm : List Nat) (f : FileData) (i : Option Int)
    (models : List SkModel) (h : read_data f i = .ok []) :
    task perm f i models = .ok (f.name, i, none) ∧
    taskEvents f i models = [.load, .transform, .evaluate] := by
  constructor
  · unfold task
    rw [h]
    rfl
  · unfold taskEvents
    rw [h]
    rfl

/-- C4 witness: the amended claim at a concrete file and an absent key. -/
theorem C4_witness :
    task permId4 fileA (some 2) [constModel 0] = .ok ("a", some 2, none) ∧
    taskEvents fileA (some 2) [constModel 0] = [.load, .transform, .evaluate] :=
  C4_amended_theorem permId4 fileA (some 2) [constModel 0] rfl

/-- C3 counterexample: two draws of the ambient RNG, both legitimate
permutations of the row indices, give different train/test splits of the same
batch; the run configuration accepts no seed that could pin the draw, so
repeated runs are not guaranteed identical splits. -/
theorem C3_counterexample :
    train_test_split dfT [0, 1, 2, 3] ≠ train_test_split dfT [1, 0, 2, 3] ∧
    ([0, 1, 2, 3] : List Nat).Perm (List.range dfT.length) ∧
    ([1, 0, 2, 3] : List Nat).Perm (List.range dfT.length) := by
  refine ⟨?_, ?_, ?_⟩ <;> decide

/-- C3 (amended): the split is a pure function of the batch and the ambient
RNG draw; for any valid draw it moves `ceil(n/4)` rows to the test side and
the rest to the train side, and together the two sides permute the batch.
No seed exists in the run configuration, so the draw varies per call. -/
theorem C3_amended_theorem (df : List TransRow) (perm : List Nat)
    (h : perm.Perm (List.range df.length)) :
    (train_test_split df perm).2.length = (df.length + 3) / 4 ∧
    (train_test_split df perm).1.length = df.length - (df.length + 3) / 4 ∧
    ((train_test_split df perm).2 ++ (train_test_split df perm).1).Perm df := by
  have hlen : perm.length = df.length := h.length_eq.trans (List.length_range _)
  have hmem : ∀ i ∈ perm, i < df.length := by
    intro i hi
    have hr := h.mem_iff.mp hi
    simpa [List.mem_range] using hr
  refine ⟨?_, ?_, ?_⟩
  · show ((perm.take ((df.length + 3) / 4)).filterMap (fun i => df[i]?)).length = _
    rw [filterMap_getElem_length df _ (fun i hi => hmem i (List.mem_of_mem_take hi)),
      List.length_take, hlen]
    omega
  · show ((perm.drop ((df.length + 3) / 4)).filterMap (fun i => df[i]?)).length = _
    rw [filterMap_getElem_length df _ (fun i hi => hmem i (List.mem_of_mem_drop hi)),
      List.length_drop, hlen]
  · show ((perm.take ((df.length + 3) / 4)).filterMap (fun i => df[i]?) ++
      (perm.drop ((df.length + 3) / 4)).filterMap (fun i => df[i]?)).Perm df
    rw [← List.filterMap_append, List.take_append_drop]
    have h1 : (perm.filterMap (fun i => df[i]?)).Perm
        ((List.range df.length).filterMap (fun i => df[i]?)) := h.filterMap _
    rw [range_filterMap_getElem df] at h1
    exact h1

/-- C3 witness: the amended claim at a concrete batch and a concrete valid
draw. -/
theorem C3_witness :
    (train_test_split dfT [2, 3, 0, 1]).2.length = 1 ∧
    (train_test_split dfT [2, 3, 0, 1]).1.length = 3 ∧
    ((train_test_split dfT [2, 3, 0, 1]).2 ++
      (train_test_split dfT [2, 3, 0, 1]).1).Perm dfT :=
  C3_amended_theorem dfT [2, 3, 0, 1] (by decide)

/-- A row with no malformed mandatory field transforms without raising. -/
theorem transform_row_ok (r : RawRow) (h1 : r.pickup_at ≠ .malformed)
    (h2 : r.dropoff_at ≠ .malformed) : transform_row r = .ok (fillRow r) := by
  obtain ⟨p, d, pl, dl⟩ := r
  cases p <;> cases d <;>
    first
      | rfl
      | exact absurd rfl h1
      | exact absurd rfl h2

/-- A row with a malformed mandatory field makes the transformer raise. -/
theorem transform_row_bad (r : RawRow)
    (h : r.pickup_at = .malformed ∨ r.dropoff_at = .malformed) :
    transform_row r = .error .transformFailed := by
  obtain ⟨p, d, pl, dl⟩ := r
  cases p <;> cases d <;>
    first
      | rfl
      | (rcases h with h1 | h1 <;> exact DTField.noConfusion h1)

/-- C9 counterexample: a batch holding one row with an unparseable mandatory
datetime makes `transform_batch` raise, instead of dropping the row and
reporting a drop count as the claim states. -/
theorem C9_counterexample :
    transform_batch [badRow] = .error .transformFailed := rfl

/-- C9 (amended): the transformer never drops rows. When no row has an
unparseable mandatory datetime it succeeds, producing exactly one output row
per input row, with missing optional location ids filled with the sentinel -1
and missing optional datetimes kept as NaT without raising; as soon as any row
has an unparseable mandatory datetime the whole transform raises, and no drop
count exists anywhere. -/
theorem C9_amended_theorem :
    (∀ rows : List RawRow,
        (∀ r ∈ rows, r.pickup_at ≠ .malformed ∧ r.dropoff_at ≠ .malformed) →
        transform_batch rows = .ok (rows.map fillRow)) ∧
    (∀ rows : List RawRow,
        (∃ r ∈ rows, r.pickup_at = .malformed ∨ r.dropoff_at = .malformed) →
        transform_batch rows = .error .transformFailed) := by
  constructor
  · intro rows h
    induction rows with
    | nil => rfl
    | cons a t ih =>
      have ha := h a (List.mem_cons_self a t)
      have ht : transform_batch t = .ok (t.map fillRow) :=
        ih (fun r hr => h r (List.mem_cons_of_mem _ hr))
      rw [transform_batch, List.mapM_cons, transform_row_ok a ha.1 ha.2]
      rw [transform_batch] at ht
      rw [ht]
      rfl
  · intro rows h
    induction rows with
    | nil => simp at h
    | cons a t ih =>
      rw [transform_batch, List.mapM_cons]
      by_cases hbad : a.pickup_at = .malformed ∨ a.dropoff_at = .malformed
      · rw [transform_row_bad a hbad]
        rfl
      · rw [not_or] at hbad
        rw [transform_row_ok a hbad.1 hbad.2]
        obtain ⟨r, hr, hmal⟩ := h
        have hrt : r ∈ t := by
          rcases List.mem_cons.mp hr with h1 | h1
          · subst h1
            exact absurd hmal (by rw [not_or]; exact hbad)
          · exact h1
        have ht := ih ⟨r, hrt, hmal⟩
        rw [transform_batch] at ht
        rw [ht]
        rfl

/-- C9 witness: a row with every optional field missing transforms without
raising, filling the sentinel -1, while a batch holding one unparseable row
raises. -/
theorem C9_witness :
    transform_batch [optRow] =
      .ok [{ pickup_at := some 0, dropoff_at := none, trip_duration := none,
             pickup_location_id := -1, dropoff_location_id := -1 }] ∧
    transform_batch [rawRow 1, badRow] = .error .transformFailed :=
  ⟨C9_amended_theorem.1 [optRow] (by decide),
   C9_amended_theorem.2 [rawRow 1, badRow] ⟨badRow, by decide, by decide⟩⟩

/-- C8: the staging phase always releases its placement reservation — the
release happens after the barrier over the load tasks, each of which catches
its own read failure internally — and an unreadable source contributes nothing
while leaving every other source's staged tasks exactly as they would be
without it. -/
theorem C8_theorem (pre post : List FileData) (bad : FileData)
    (h : bad.readable = false) :
    (task_generator_with_object_store (pre ++ bad :: post)).released = true ∧
    (task_generator_with_object_store (pre ++ bad :: post)).tasks =
      (task_generator_with_object_store (pre ++ post)).tasks := by
  refine ⟨rfl, ?_⟩
  simp only [task_generator_with_object_store, List.map_append, List.map_cons,
    List.flatMap_append, List.flatMap_cons]
  rw [read_into_object_store, h]
  simp

/-- C8 witness: with an unreadable first source, the reservation is still
released and the second source is staged exactly as in the run without the
broken source. -/
theorem C8_witness :
    (task_generator_with_object_store [fileBad, fileA]).released = true ∧
    (task_generator_with_object_store [fileBad, fileA]).tasks =
      (task_generator_with_object_store [fileA]).tasks :=
  C8_theorem [] [fileA] fileBad rfl

/-- A successful `ray.get` over a list of refs yields exactly the ok payloads
in ref order. -/
theorem rayGetAll_ok {ε α : Type _} :
    ∀ {l : List (Except ε α)} {v : List α},
      rayGetAll l = .ok v → v = l.filterMap Except.toOption := by
  intro l
  induction l with
  | nil =>
    intro v h
    have h2 : (Except.ok [] : Except ε (List α)) = .ok v := h
    injection h2 with h2
    simp [h2.symm]
  | cons a t ih =>
    intro v h
    cases a with
    | error e => exact Except.noConfusion h
    | ok a =>
      cases hr : rayGetAll t with
      | error e =>
        rw [show rayGetAll (.ok a :: t) = (rayGetAll t).map (a :: ·) from rfl,
          hr] at h
        exact Except.noConfusion h
      | ok w =>
        rw [show rayGetAll (.ok a :: t) = (rayGetAll t).map (a :: ·) from rfl,
          hr] at h
        have h2 : (Except.ok (a :: w) : Except ε (List α)) = .ok v := h
        injection h2 with h2
        rw [← h2, List.filterMap_cons]
        simp [Except.toOption, ih hr]

/-- When every submitted unit succeeded, `ray.get` returns all payloads. -/
theorem rayGetAll_all_ok {ε α : Type _} :
    ∀ {l : List (Except ε α)}, (∀ r ∈ l, exceptOk r = true) →
      rayGetAll l = .ok (l.filterMap Except.toOption) := by
  intro l
  induction l with
  | nil => intro _; rfl
  | cons a t ih =>
    intro h
    cases a with
    | error e =>
      have hh := h _ (List.mem_cons_self _ _)
      simp [exceptOk] at hh
    | ok a =>
      rw [show rayGetAll (.ok a :: t) = (rayGetAll t).map (a :: ·) from rfl,
        ih (fun r hr => h r (List.mem_cons_of_mem _ hr))]
      simp [Except.map, List.filterMap_cons, Except.toOption]

/-- When some submitted unit failed, `ray.get` re-raises an exception. -/
theorem rayGetAll_error {ε α : Type _} :
    ∀ {l : List (Except ε α)}, (∃ r ∈ l, exceptOk r = false) →
      ∃ e, rayGetAll l = .error e := by
  intro l
  induction l with
  | nil =>
    rintro ⟨r, hr, _⟩
    simp at hr
  | cons a t ih =>
    rintro ⟨r, hr, hf⟩
    cases a with
    | error e => exact ⟨e, rfl⟩
    | ok a =>
      rcases List.mem_cons.mp hr with h1 | h1
      · subst h1
        simp [exceptOk] at hf
      · obtain ⟨e, he⟩ := ih ⟨r, h1, hf⟩
        refine ⟨e, ?_⟩
        rw [show rayGetAll (.ok a :: t) = (rayGetAll t).map (a :: ·) from rfl, he]
        rfl

/-- Extracting the payloads of an all-ok list loses nothing. -/
theorem filterMap_toOption_length {ε α : Type _} :
    ∀ {l : List (Except ε α)}, (∀ r ∈ l, exceptOk r = true) →
      (l.filterMap Except.toOption).length = l.length := by
  intro l
  induction l with
  | nil => intro _; rfl
  | cons a t ih =>
    intro h
    cases a with
    | error e =>
      have hh := h _ (List.mem_cons_self _ _)
      simp [exceptOk] at hh
    | ok a =>
      rw [List.filterMap_cons]
      simp [Except.toOption, ih (fun r hr => h r (List.mem_cons_of_mem _ hr))]

/-- Inserting one element grows the list by one. -/
theorem insertAsc_length (x : SkFitted × ℚ) :
    ∀ acc : List (SkFitted × ℚ), (insertAsc x acc).length = acc.length + 1 := by
  intro acc
  induction acc with
  | nil => rfl
  | cons y ys ih =>
    rw [insertAsc]
    by_cases h : scoreLE y x = true
    · rw [if_pos h]
      simp [ih]
    · rw [if_neg h]
      simp

/-- The insertion sort preserves length. -/
theorem pySortAux_length :
    ∀ (xs acc : List (SkFitted × ℚ)),
      (pySortAux acc xs).length = acc.length + xs.length := by
  intro xs
  induction xs with
  | nil => intro acc; simp [pySortAux]
  | cons x t ih =>
    intro acc
    rw [show pySortAux acc (x :: t) = pySortAux (insertAsc x acc) t from rfl,
      ih, insertAsc_length]
    simp
    omega

/-- `pySort` preserves length. -/
theorem pySort_length (l : List (SkFitted × ℚ)) : (pySort l).length = l.length := by
  rw [pySort, pySortAux_length]
  simp

/-- C1 counterexample: with two routines of which the second fails at fit, the
evaluation group re-raises the failure instead of ranking the one survivor;
with both failing it re-raises instead of returning the empty marker. -/
theorem C1_counterexample :
    train_and_evaluate dfT [constModel 0, failModel] permId4 =
      .error .fitFailed ∧
    train_and_evaluate dfT [failModel, failModel] permId4 =
      .error .fitFailed :=
  ⟨rfl, rfl⟩

/-- C1 (amended): over a batch of at least four rows, the evaluation group
returns a ranking of exactly n entries when all n routines succeed, but as
soon as any routine fails during fit or predict the failure is re-raised by
the group's collective `ray.get` — the failed routine is not excluded and no
ranking (in particular no empty marker) is produced. -/
theorem C1_amended_theorem (df : List TransRow) (models : List SkModel)
    (perm : List Nat) (h4 : 4 ≤ df.length) :
    ((∀ r ∈ unitResults df models perm, exceptOk r = true) →
      train_and_evaluate df models perm =
        .ok (some (pySort (trainerResults df models perm))) ∧
      (pySort (trainerResults df models perm)).length = models.length) ∧
    ((∃ r ∈ unitResults df models perm, exceptOk r = false) →
      ∃ e, train_and_evaluate df models perm = .error e) := by
  have hnot : ¬ df.length < 4 := by omega
  constructor
  · intro hok
    constructor
    · rw [train_and_evaluate, if_neg hnot, rayGetAll_all_ok hok]
      exact rfl
    · rw [pySort_length, trainerResults, filterMap_toOption_length hok]
      simp [unitResults]
  · intro hbad
    obtain ⟨e, he⟩ := rayGetAll_error hbad
    refine ⟨e, ?_⟩
    rw [train_and_evaluate, if_neg hnot, he]

/-- C1 witness: the amended claim at a concrete batch, once with one
succeeding routine and once with a succeeding and a failing routine. -/
theorem C1_witness :
    (train_and_evaluate dfT [constModel 95] permId4 =
        .ok (some (pySort (trainerResults dfT [constModel 95] permId4))) ∧
      (pySort (trainerResults dfT [constModel 95] permId4)).length = 1) ∧
    (∃ e, train_and_evaluate dfT [constModel 95, failModel] permId4 =
      .error e) :=
  ⟨(C1_amended_theorem dfT [constModel 95] permId4 (by decide)).1 (by decide),
   (C1_amended_theorem dfT [constModel 95, failModel] permId4 (by decide)).2
     (by decide)⟩

/-- C2 counterexample: a run over one source with a healthy partition 1 and a
partition 2 whose transform raises aborts the whole collection with the raw
error — no `PipelinePartialFailure` result is recorded and the healthy
sibling's result is discarded, even though that sibling's own task succeeds. -/
theorem C2_counterexample :
    run [fileMix] [constModel 0] permsId = .error .transformFailed ∧
    exceptOk (task permId4 fileMix (some 1) [constModel 0]) = true :=
  ⟨rfl, rfl⟩

/-- C2 (amended): an unexpected failure while loading or transforming a
partition propagates out of its pipeline task uncaught, so whenever any
submitted pipeline fails, the coordinator's `ray.get` re-raises it and the
whole run returns a failure instead of a report. -/
theorem C2_amended_theorem (files : List FileData) (models : List SkModel)
    (perms : Nat → List Nat)
    (h : ∃ r ∈ submittedTasks files models perms, exceptOk r = false) :
    exceptOk (run files models perms) = false := by
  obtain ⟨e, he⟩ := rayGetAll_error h
  rw [run, he]
  rfl

/-- C2 witness: a run over the mixed source and a second healthy source fails
as a whole. -/
theorem C2_witness :
    exceptOk (run [fileMix, fileA] [constModel 0] permsId) = false :=
  C2_amended_theorem [fileMix, fileA] [constModel 0] permsId (by decide)

/-- Membership in an insertion. -/
theorem mem_insertAsc (x : SkFitted × ℚ) :
    ∀ (acc : List (SkFitted × ℚ)) (a : SkFitted × ℚ),
      a ∈ insertAsc x acc ↔ a = x ∨ a ∈ acc := by
  intro acc a
  induction acc with
  | nil => simp [insertAsc]
  | cons y ys ih =>
    rw [insertAsc]
    by_cases h : scoreLE y x = true
    · rw [if_pos h]
      simp only [List.mem_cons, ih]
      tauto
    · rw [if_neg h]
      simp only [List.mem_cons]

/-- Inserting into a score-sorted list keeps it score-sorted. -/
theorem insertAsc_sorted (x : SkFitted × ℚ) :
    ∀ {acc : List (SkFitted × ℚ)},
      acc.Pairwise (fun a b => a.2 ≤ b.2) →
      (insertAsc x acc).Pairwise (fun a b => a.2 ≤ b.2) := by
  intro acc
  induction acc with
  | nil =>
    intro _
    simp [insertAsc]
  | cons y ys ih =>
    intro h
    rw [List.pairwise_cons] at h
    obtain ⟨hy, hys⟩ := h
    rw [insertAsc]
    by_cases hc : scoreLE y x = true
    · rw [if_pos hc]
      rw [List.pairwise_cons]
      refine ⟨?_, ih hys⟩
      intro a ha
      rcases (mem_insertAsc x ys a).mp ha with h1 | h1
      · subst h1
        simpa [scoreLE] using hc
      · exact hy a h1
    · rw [if_neg hc]
      have hxy : x.2 ≤ y.2 := by
        have hlt : ¬ y.2 ≤ x.2 := by simpa [scoreLE] using hc
        exact le_of_not_le hlt
      rw [List.pairwise_cons]
      constructor
      · intro a ha
        rcases List.mem_cons.mp ha with h1 | h1
        · subst h1
          exact hxy
        · exact le_trans hxy (hy a h1)
      · exact List.pairwise_cons.mpr ⟨hy, hys⟩

/-- Inserting an element of another score class leaves a score class's
subsequence untouched. -/
theorem insertAsc_filter_ne (x : SkFitted × ℚ) (s : ℚ) (hx : ¬ x.2 = s) :
    ∀ acc : List (SkFitted × ℚ),
      (insertAsc x acc).filter (fun r => decide (r.2 = s)) =
        acc.filter (fun r => decide (r.2 = s)) := by
  intro acc
  induction acc with
  | nil => simp [insertAsc, hx]
  | cons y ys ih =>
    rw [insertAsc]
    by_cases hc : scoreLE y x = true
    · rw [if_pos hc]
      rw [List.filter_cons, List.filter_cons, ih]
    · rw [if_neg hc]
      rw [List.filter_cons]
      simp [hx]

/-- Inserting an element of a score class into a sorted list appends it after
the class's existing members. -/
theorem insertAsc_filter_eq (x : SkFitted × ℚ) (s : ℚ) (hx : x.2 = s) :
    ∀ {acc : List (SkFitted × ℚ)},
      acc.Pairwise (fun a b => a.2 ≤ b.2) →
      (insertAsc x acc).filter (fun r => decide (r.2 = s)) =
        acc.filter (fun r => decide (r.2 = s)) ++ [x] := by
  intro acc
  induction acc with
  | nil =>
    intro _
    simp [insertAsc, hx]
  | cons y ys ih =>
    intro hp
    rw [List.pairwise_cons] at hp
    obtain ⟨hy, hys⟩ := hp
    rw [insertAsc]
    by_cases hc : scoreLE y x = true
    · rw [if_pos hc]
      rw [List.filter_cons, List.filter_cons, ih hys]
      by_cases hpy : y.2 = s
      · simp [hpy]
      · simp [hpy]
    · rw [if_neg hc]
      have hxy : x.2 < y.2 := by
        have hlt : ¬ y.2 ≤ x.2 := by simpa [scoreLE] using hc
        exact lt_of_not_le hlt
      have hnil : (y :: ys).filter (fun r => decide (r.2 = s)) = [] := by
        rw [List.filter_eq_nil_iff]
        intro a ha
        have hya : y.2 ≤ a.2 := by
          rcases List.mem_cons.mp ha with h1 | h1
          · subst h1
            exact le_refl _
          · exact hy a h1
        have hgt : s < a.2 := lt_of_lt_of_le (hx ▸ hxy) hya
        simp only [decide_eq_true_eq]
        exact ne_of_gt hgt
      rw [List.filter_cons]
      simp [hx, hnil]

/-- The insertion sort keeps the accumulator sorted. -/
theorem pySortAux_sorted :
    ∀ (xs acc : List (SkFitted × ℚ)),
      acc.Pairwise (fun a b => a.2 ≤ b.2) →
      (pySortAux acc xs).Pairwise (fun a b => a.2 ≤ b.2) := by
  intro xs
  induction xs with
  | nil =>
    intro acc h
    exact h
  | cons x t ih =>
    intro acc h
    exact ih _ (insertAsc_sorted x h)

/-- The insertion sort appends each score class in arrival order. -/
theorem pySortAux_filter (s : ℚ) :
    ∀ (xs acc : List (SkFitted × ℚ)),
      acc.Pairwise (fun a b => a.2 ≤ b.2) →
      (pySortAux acc xs).filter (fun r => decide (r.2 = s)) =
        acc.filter (fun r => decide (r.2 = s)) ++
          xs.filter (fun r => decide (r.2 = s)) := by
  intro xs
  induction xs with
  | nil =>
    intro acc h
    simp [pySortAux]
  | cons x t ih =>
    intro acc h
    rw [show pySortAux acc (x :: t) = pySortAux (insertAsc x acc) t from rfl,
      ih _ (insertAsc_sorted x h)]
    by_cases hx : x.2 = s
    · rw [insertAsc_filter_eq x s hx h, List.filter_cons]
      simp [hx]
    · rw [insertAsc_filter_ne x s hx, List.filter_cons]
      simp [hx]

/-- The stable sort's output is sorted ascending by score. -/
theorem pySort_sorted (l : List (SkFitted × ℚ)) :
    (pySort l).Pairwise (fun a b => a.2 ≤ b.2) :=
  pySortAux_sorted l [] (by simp)

/-- The stable sort leaves each score class in input order. -/
theorem pySort_filter (l : List (SkFitted × ℚ)) (s : ℚ) :
    (pySort l).filter (fun r => decide (r.2 = s)) =
      l.filter (fun r => decide (r.2 = s)) := by
  have h := pySortAux_filter s l [] (by simp)
  simpa [pySort] using h

/-- C6: any ranking the evaluation group produces is sorted ascending by error
score, and within each exact score class the surviving results appear in
routine declaration order (the stability of Python's `list.sort`). -/
theorem C6_theorem (df : List TransRow) (models : List SkModel)
    (perm : List Nat) (out : List (SkFitted × ℚ))
    (h : train_and_evaluate df models perm = .ok (some out)) :
    out.Pairwise (fun a b => a.2 ≤ b.2) ∧
    ∀ s : ℚ, out.filter (fun r => decide (r.2 = s)) =
      (trainerResults df models perm).filter (fun r => decide (r.2 = s)) := by
  rw [train_and_evaluate] at h
  by_cases h4 : df.length < 4
  · rw [if_pos h4] at h
    have h2 : (Except.ok none :
        Except TrainingFailure (Option (List (SkFitted × ℚ)))) =
      .ok (some out) := h
    simp at h2
  · rw [if_neg h4] at h
    cases hr : rayGetAll (unitResults df models perm) with
    | error e =>
      rw [hr] at h
      exact Except.noConfusion h
    | ok results =>
      rw [hr] at h
      have h2 : (Except.ok (some (pySort results)) :
          Except TrainingFailure (Option (List (SkFitted × ℚ)))) =
        .ok (some out) := h
      have h3 : pySort results = out := by
        injection h2 with h2a
        injection h2a
      have h4r : results = trainerResults df models perm := rayGetAll_ok hr
      subst h4r
      rw [← h3]
      exact ⟨pySort_sorted _, fun s => pySort_filter _ s⟩

/-- C6 witness: the ranking of a concrete evaluation is sorted and preserves
declaration order inside the score class at 5. -/
theorem C6_witness :
    (pySort (trainerResults dfT [constModel 95] permId4)).Pairwise
      (fun a b => a.2 ≤ b.2) ∧
    (pySort (trainerResults dfT [constModel 95] permId4)).filter
        (fun r => decide (r.2 = 5)) =
      (trainerResults dfT [constModel 95] permId4).filter
        (fun r => decide (r.2 = 5)) :=
  ⟨(C6_theorem dfT [constModel 95] permId4 _ rfl).1,
   (C6_theorem dfT [constModel 95] permId4 _ rfl).2 5⟩

/-- C7: evaluating the coordinator on the spec's own scenario — one source
with three partition keys, of which key 1 has too few rows — shows the
attempted count equals the three discovered (source, key) pairs, but the
`count_not_none` the report prints is also 3, not the result-bearing count 2:
`x is not None` tests the 3-tuple returned by `task`, which is never `None`,
so the reported counts can never differ. -/
theorem C7_theorem :
    (run [fileS] [constModel 0] permsId).map (fun r =>
        (r.count, r.countNotNone,
          (r.results.filter (fun x => x.2.2.isSome)).length)) =
      .ok (3, 3, 2) ∧
    (task_generator [fileS]).length = 3 :=
  ⟨rfl, rfl⟩

/-- Every deposited value agrees with the submitted task at its index. -/
theorem lookup_storeAfter {α : Type _} (tasks : List α) :
    ∀ (order : List Nat) (i : Nat), i ∈ order → i < tasks.length →
      (storeAfter tasks order).lookup i = tasks[i]? := by
  intro order
  induction order with
  | nil =>
    intro i hi _
    simp at hi
  | cons j rest ih =>
    intro i hi hlt
    rw [storeAfter, List.filterMap_cons]
    cases hj : tasks[j]? with
    | none =>
      have hij : i ≠ j := by
        intro he
        subst he
        rw [List.getElem?_eq_getElem hlt] at hj
        exact Option.noConfusion hj
      have hir : i ∈ rest := by
        rcases List.mem_cons.mp hi with h1 | h1
        · exact absurd h1 hij
        · exact h1
      simpa only [Option.map_none', storeAfter] using ih i hir hlt
    | some t =>
      simp only [Option.map_some']
      by_cases hij : i = j
      · subst hij
        rw [List.getElem?_eq_getElem hlt] at hj
        rw [List.getElem?_eq_getElem hlt]
        simp [List.lookup, hj]
      · have hir : i ∈ rest := by
          rcases List.mem_cons.mp hi with h1 | h1
          · exact absurd h1 hij
          · exact h1
        have hne : (i == j) = false := by
          simp [hij]
        simp only [List.lookup, hne]
        simpa only [storeAfter] using ih i hir hlt

/-- Once every submitted task has completed, reading the futures in list order
returns the values in list order, whatever the completion interleaving was. -/
theorem await_all_complete {α : Type _} (tasks : List α) (order : List Nat)
    (h : ∀ i < tasks.length, i ∈ order) :
    await_all tasks order = tasks.map some := by
  rw [await_all]
  apply List.ext_getElem
  · simp
  · intro n h1 h2
    have hn : n < tasks.length := by simpa using h2
    simp only [List.getElem_map, List.getElem_range]
    rw [lookup_storeAfter tasks order n (h n hn) hn,
      List.getElem?_eq_getElem hn]

/-- C10: the coordinator's results list is in submission order — files in the
given order, and inside a file the partition keys in the locator's
first-occurrence order — for every completion interleaving of the parallel
pipelines, because `ray.get` reads the futures list in its own order. -/
theorem C10_theorem (files : List FileData) (models : List SkModel)
    (perms : Nat → List Nat) (order : List Nat)
    (h : ∀ i < (submittedTasks files models perms).length, i ∈ order) :
    await_all (submittedTasks files models perms) order =
      (submittedTasks files models perms).map some :=
  await_all_complete _ order h

/-- C10 witness: with three submitted pipelines completing in the order
2, 0, 1, the collected results still follow submission order. -/
theorem C10_witness :
    await_all (submittedTasks [fileS] [constModel 0] permsId) [2, 0, 1] =
      (submittedTasks [fileS] [constModel 0] permsId).map some :=
  C10_theorem [fileS] [constModel 0] permsId [2, 0, 1] (by decide)

end BatchTraining
